import Mathlib

/-!
# Verification of the historical crypto price resolution engine

Shallow embedding of `src/fetch-from-centralized-exchange/getCryptoPriceFromCentralizedExchange.gs`
(the Google Apps Script implementation, which is the primary source cited by the claims) and of the
time-normalization code of `src/fetch-from-centralized-exchange/crypto-price-filler/index.js`
(the CLI mirror).

Modelling conventions:
* JavaScript numbers that carry prices, volumes and timestamps are modelled as exact rationals
  (`ℚ`) resp. integers (`ℤ`); the claims under verification are about which field is selected and
  which arithmetic is performed, not about binary floating-point rounding.
* HTTP fetches plus the subsequent `JSON.parse` are modelled by an oracle (`Net`) that yields, per
  endpoint, either a thrown exception (transport error or malformed JSON), a non-200 HTTP status,
  or the parsed response value.  Every fetch is logged in `Sys.calls`, which is how "no network
  access" is expressed.
* `LockService` is modelled by a `heldByUs` flag plus an oracle list `lockGrants` of outcomes for
  `tryLock` attempts made while not holding the lock.  `Utilities.sleep` is logged in `Sys.sleeps`.
* `CacheService` is modelled as an association list from keys to stored values with their TTL.
  Stored strings are modelled at the value level: the sentinel `'NO_DATA'` is `CacheVal.noData`, a
  stored numeric string is `CacheVal.price q` (JavaScript `parseFloat`/`toString` round-trip
  numeric strings).
-/

/-! ## Date components and calendar arithmetic (embedding of `Date.UTC`) -/

structure DateComponents where
  year : Nat
  month : Nat
  day : Nat
  hour : Nat
  minute : Nat
  second : Nat
deriving DecidableEq, Repr

def isLeap (y : Nat) : Bool :=
  (y % 4 == 0 && y % 100 != 0) || y % 400 == 0

def monthLengths (leap : Bool) : List Nat :=
  [31, if leap then 29 else 28, 31, 30, 31, 30, 31, 31, 30, 31, 30, 31]

def daysInMonthL (leap : Bool) (m : Nat) : Nat :=
  ((monthLengths leap).get? (m - 1)).getD 0

def daysInMonth (y m : Nat) : Nat := daysInMonthL (isLeap y) m

def daysInYearL (leap : Bool) : Nat := if leap then 366 else 365

def daysInYear (y : Nat) : Nat := daysInYearL (isLeap y)

/-- Days from March-less civil count: days from `⟨y, 1, 1⟩` to `⟨y, m, 1⟩`. -/
def daysBeforeMonthL (leap : Bool) (m : Nat) : Nat :=
  ((List.range (m - 1)).map (fun i => daysInMonthL leap (i + 1))).sum

/-- Total length in days of the `k` consecutive years starting at `y0`. -/
def sumYearsFrom (y0 k : Nat) : Nat :=
  ((List.range k).map (fun i => daysInYear (y0 + i))).sum

/-- Days from 1970-01-01 to `y`-01-01 (for `y ≥ 1970`). -/
def daysBeforeYear (y : Nat) : Nat := sumYearsFrom 1970 (y - 1970)

/-- Days from 1970-01-01 to `y`-`m`-`d` in the proleptic Gregorian calendar. -/
def daysFromCivil (y m d : Nat) : Nat :=
  daysBeforeYear y + daysBeforeMonthL (isLeap y) m + (d - 1)

/-- Embedding of `Date.UTC(year, month - 1, day, hour, minute, second)` for calendar-valid
components with `year ≥ 1970` (all inputs the `.gs` code passes after validation). -/
def componentsToUtcMs (c : DateComponents) : Nat :=
  daysFromCivil c.year c.month c.day * 86400000
    + c.hour * 3600000 + c.minute * 60000 + c.second * 1000

/-- Inverse month lookup: given a leap flag, a month to start from and a day-of-year offset,
produce the month and (1-based) day of month.  Fuel-driven so that it reduces in the kernel. -/
def monthFromDaysF : Nat → Bool → Nat → Nat → Nat × Nat
  | 0, _, m, n => (m, n + 1)
  | fuel + 1, leap, m, n =>
    if 12 ≤ m then (m, n + 1)
    else if n < daysInMonthL leap m then (m, n + 1)
    else monthFromDaysF fuel leap (m + 1) (n - daysInMonthL leap m)

/-- Inverse year lookup: starting year plus day count to year and day-of-year. -/
def yearFromDaysF : Nat → Nat → Nat → Nat × Nat
  | 0, y, n => (y, n)
  | fuel + 1, y, n =>
    if n < daysInYear y then (y, n) else yearFromDaysF fuel (y + 1) (n - daysInYear y)

/-- Decode an epoch-millisecond instant back into UTC calendar components (the standard civil
calendar decoding; used to state the round-trip law and to embed `Utilities.formatDate`). -/
def utcMsToComponents (ms : Nat) : DateComponents :=
  let days := ms / 86400000
  let rem := ms % 86400000
  let yd := yearFromDaysF 400 1970 days
  let md := monthFromDaysF 12 (isLeap yd.1) 1 yd.2
  ⟨yd.1, md.1, md.2, rem / 3600000, rem % 3600000 / 60000, rem % 60000 / 1000⟩

/-- Calendar validity exactly as enforced by `parseDateStringToComponents` in the source:
year 1970–2100, month 1–12, day legal for the month (including leap years), 24-hour clock. -/
def validComponents (c : DateComponents) : Prop :=
  1970 ≤ c.year ∧ c.year ≤ 2100 ∧ 1 ≤ c.month ∧ c.month ≤ 12 ∧
  1 ≤ c.day ∧ c.day ≤ daysInMonth c.year c.month ∧
  c.hour ≤ 23 ∧ c.minute ≤ 59 ∧ c.second ≤ 59

instance (c : DateComponents) : Decidable (validComponents c) := by
  unfold validComponents; infer_instance

/-! ## String helpers -/

def pad2 (n : Nat) : String := if n < 10 then "0" ++ toString n else toString n

def pad4 (n : Nat) : String :=
  if n < 10 then "000" ++ toString n
  else if n < 100 then "00" ++ toString n
  else if n < 1000 then "0" ++ toString n
  else toString n

/-- Embedding of `Utilities.formatDate(date, 'UTC', 'yyyy-MM-dd HH:mm:ss')`. -/
def componentsToString (c : DateComponents) : String :=
  pad4 c.year ++ "-" ++ pad2 c.month ++ "-" ++ pad2 c.day ++ " " ++
    pad2 c.hour ++ ":" ++ pad2 c.minute ++ ":" ++ pad2 c.second

/-- Embedding of `Utilities.formatDate(new Date(utcMs), 'UTC', 'dd-MM-yyyy')` (the CoinGecko
daily-cache key date). -/
def formatDateDDMMYYYY (utcMs : Int) : String :=
  let c := utcMsToComponents utcMs.toNat
  pad2 c.day ++ "-" ++ pad2 c.month ++ "-" ++ toString c.year

/-- JavaScript `toUpperCase()` (kernel-reducible character-list implementation). -/
def jsToUpper (s : String) : String := ⟨s.data.map Char.toUpper⟩

/-- JavaScript `toLowerCase()` (kernel-reducible character-list implementation). -/
def jsToLower (s : String) : String := ⟨s.data.map Char.toLower⟩

/-- Two decimal digit characters to a number, e.g. for `parseInt(mStr, 10)`. -/
def d2 (a b : Char) : Nat := (a.toNat - 48) * 10 + (b.toNat - 48)

/-- Four decimal digit characters to a number. -/
def d4 (a b c d : Char) : Nat :=
  (a.toNat - 48) * 1000 + (b.toNat - 48) * 100 + (c.toNat - 48) * 10 + (d.toNat - 48)

/-! ## Time normalizer (`.gs` implementation) -/

/-- Embedding of `parseDateStringToComponents` (`getCryptoPriceFromCentralizedExchange.gs`).
The regex `^(\d{4})-(\d{2})-(\d{2}) (\d{2}):(\d{2}):(\d{2})$` is embedded as a structural match
on the character list.  The source's calendar check builds `new Date(year, month-1, day)` and
compares the components against the inputs; that round-trip succeeds exactly when
`day ≤ daysInMonth year month` (month is already in 1–12 and day in 1–31 at that point), which is
how the check is embedded here. -/
def parseDateStringToComponents (s : String) : Except String DateComponents :=
  match s.data with
  | [y1, y2, y3, y4, '-', m1, m2, '-', dd1, dd2, ' ',
     h1, h2, ':', i1, i2, ':', e1, e2] =>
    if y1.isDigit && y2.isDigit && y3.isDigit && y4.isDigit &&
       m1.isDigit && m2.isDigit && dd1.isDigit && dd2.isDigit &&
       h1.isDigit && h2.isDigit && i1.isDigit && i2.isDigit &&
       e1.isDigit && e2.isDigit then
      let year := d4 y1 y2 y3 y4
      let month := d2 m1 m2
      let day := d2 dd1 dd2
      let hour := d2 h1 h2
      let minute := d2 i1 i2
      let second := d2 e1 e2
      if year < 1970 ∨ year > 2100 then .error "Invalid year (1970–2100)"
      else if month < 1 ∨ month > 12 then .error "Invalid month (01–12)"
      else if day < 1 ∨ day > 31 then .error "Invalid day (01–31)"
      else if hour > 23 then .error "Invalid hour (00–23)"
      else if minute > 59 then .error "Invalid minute (00–59)"
      else if second > 59 then .error "Invalid second (00–59)"
      else if day ≤ daysInMonth year month then
        .ok ⟨year, month, day, hour, minute, second⟩
      else .error "Invalid date (e.g., Feb 30 does not exist)"
    else .error "Invalid format. Use exactly YYYY-MM-DD HH:MM:SS (24-hour)"
  | _ => .error "Invalid format. Use exactly YYYY-MM-DD HH:MM:SS (24-hour)"

/-- `CONFIG.TIMEZONE_OFFSETS`. -/
def timezoneOffsets : List (String × Int) :=
  [("UTC", 0), ("GMT", 0), ("EST", -5), ("EDT", -4), ("CST", -6), ("CDT", -5),
   ("MST", -7), ("MDT", -6), ("PST", -8), ("PDT", -7)]

/-- Embedding of `getTimezoneOffsetHours` (unknown abbreviations default to offset 0). -/
def getTimezoneOffsetHours (tz : String) : Int :=
  match timezoneOffsets.find? (fun p => p.1 == jsToUpper tz) with
  | some p => p.2
  | none => 0

/-- The orchestrator's `dateStr` argument: a string, a valid `Date` object (represented by its
UTC components), or any other value (the source's final `else` branch). -/
inductive DateInput where
  | str (s : String)
  | dateObj (c : DateComponents)
  | otherVal
deriving DecidableEq

/-- Embedding of `parseInputToUtcMs` (`.gs`).  `createUtcTimestampFromComponents` is
`componentsToUtcMs`; its `isNaN` guard never fires for the component values reaching it and has
no error branch here. -/
def parseInputToUtcMs (dateInput : DateInput) (offsetHours : Int) : Except String Int :=
  match dateInput with
  | .str s =>
    match parseDateStringToComponents s with
    | .error e => .error e
    | .ok c => .ok ((componentsToUtcMs c : Int) - offsetHours * 3600000)
  | .dateObj c => .ok ((componentsToUtcMs c : Int) - offsetHours * 3600000)
  | .otherVal => .error "Error: dateStr must be string \"YYYY-MM-DD HH:MM:SS\" or valid Date"

/-- The orchestrator's "safely handle dateStr" step: strings pass through, `Date` objects are
formatted with `'yyyy-MM-dd HH:mm:ss'`, anything else is the `'Invalid date format'` branch. -/
def dateInputToSafeStr : DateInput → Option String
  | .str s => some s
  | .dateObj c => some (componentsToString c)
  | .otherVal => none

/-- `safeDateStr.replace(/[^0-9-]/g, '')`. -/
def cleanDateStr (s : String) : String :=
  ⟨s.data.filter (fun ch => ch.isDigit || ch == '-')⟩

/-- The orchestrator's cache key `price_${token}_${cleaned}_${tz}_${target}`. -/
def cacheKeyFor (token safeDateStr tz target : String) : String :=
  "price_" ++ token ++ "_" ++ cleanDateStr safeDateStr ++ "_" ++ tz ++ "_" ++ target

/-! ## Time normalizer (CLI implementation, `crypto-price-filler/index.js`) -/

/-- Embedding of `date-fns` `parse(dateStr, 'yyyy-MM-dd HH:mm:ss', new Date())` followed by
`.getTime()`: the string must match the format tokens and denote a calendar-valid date, and the
resulting `Date` is interpreted in the machine's local zone, whose offset from UTC is
`localOffsetMs`. -/
def dateFnsParseMs (s : String) (localOffsetMs : Int) : Option Int :=
  match s.data with
  | [y1, y2, y3, y4, '-', m1, m2, '-', dd1, dd2, ' ',
     h1, h2, ':', i1, i2, ':', e1, e2] =>
    if y1.isDigit && y2.isDigit && y3.isDigit && y4.isDigit &&
       m1.isDigit && m2.isDigit && dd1.isDigit && dd2.isDigit &&
       h1.isDigit && h2.isDigit && i1.isDigit && i2.isDigit &&
       e1.isDigit && e2.isDigit then
      let c : DateComponents := ⟨d4 y1 y2 y3 y4, d2 m1 m2, d2 dd1 dd2,
                                 d2 h1 h2, d2 i1 i2, d2 e1 e2⟩
      if 1 ≤ c.month ∧ c.month ≤ 12 ∧ 1 ≤ c.day ∧ c.day ≤ daysInMonth c.year c.month ∧
         c.hour ≤ 23 ∧ c.minute ≤ 59 ∧ c.second ≤ 59 ∧ 1970 ≤ c.year then
        some ((componentsToUtcMs c : Int) - localOffsetMs)
      else none
    else none
  | _ => none

/-- Embedding of `new Date(dateStr).getTime()` restricted to the ECMA-262 Date Time String
Format subset `YYYY-MM-DDTHH:mm:ssZ` (ECMA-262 §21.4.3.2 requires engines to parse this shape
and to reject calendar-invalid field values).  All other inputs go through an engine-specific
legacy parser; they are conservatively modelled as `NaN` (`none`), which only under-approximates
the set of strings the CLI fallback accepts. -/
def jsDateParseIso (s : String) : Option Int :=
  match s.data with
  | [y1, y2, y3, y4, '-', m1, m2, '-', dd1, dd2, 'T',
     h1, h2, ':', i1, i2, ':', e1, e2, 'Z'] =>
    if y1.isDigit && y2.isDigit && y3.isDigit && y4.isDigit &&
       m1.isDigit && m2.isDigit && dd1.isDigit && dd2.isDigit &&
       h1.isDigit && h2.isDigit && i1.isDigit && i2.isDigit &&
       e1.isDigit && e2.isDigit then
      let c : DateComponents := ⟨d4 y1 y2 y3 y4, d2 m1 m2, d2 dd1 dd2,
                                 d2 h1 h2, d2 i1 i2, d2 e1 e2⟩
      if 1 ≤ c.month ∧ c.month ≤ 12 ∧ 1 ≤ c.day ∧ c.day ≤ daysInMonth c.year c.month ∧
         c.hour ≤ 23 ∧ c.minute ≤ 59 ∧ c.second ≤ 59 ∧ 1970 ≤ c.year then
        some (componentsToUtcMs c : Int)
      else none
    else none
  | _ => none

/-- Embedding of `parseInputToUtcMs` from `crypto-price-filler/index.js` (the `date-fns`
revision): strict-format parse first, then the explicit "Fallback for other formats" through
`new Date(dateStr)`.  `none` models the `null` error return. -/
def cliParseInputToUtcMs (dateStr : String) (offsetHours localOffsetMs : Int) : Option Int :=
  match dateFnsParseMs dateStr localOffsetMs with
  | some t => some (t - offsetHours * 3600000)
  | none =>
    match jsDateParseIso dateStr with
    | none => none
    | some t => some (t - offsetHours * 3600000)

/-! ## Runtime values, cache, lock, and effect log -/

/-- A JavaScript value returned by the entry point: a finite number, `NaN`, or a string. -/
inductive JSValue where
  | num (q : ℚ)
  | nan
  | str (s : String)
deriving DecidableEq, Repr

/-- A well-typed view of the strings held by `CacheService`: the `'NO_DATA'` sentinel, or a
numeric string (stored by `toString`, read back by `parseFloat`). -/
inductive CacheVal where
  | noData
  | price (q : ℚ)
deriving DecidableEq, Repr

structure CacheEntry where
  key : String
  val : CacheVal
  ttl : Nat
deriving DecidableEq, Repr

/-- Process/system state threaded through a single resolution: the script cache, whether this
resolution currently holds the script lock, the oracle of outcomes for lock acquisition
attempts, and the logs of sleeps (ms) and of outbound HTTP calls. -/
structure Sys where
  cache : List CacheEntry
  heldByUs : Bool
  lockGrants : List Bool
  sleeps : List Nat
  calls : List String
deriving DecidableEq, Repr

def cacheGet (k : String) (c : List CacheEntry) : Option CacheVal :=
  (c.find? (fun e => e.key == k)).map (fun e => e.val)

def cachePut (k : String) (v : CacheVal) (ttl : Nat) (c : List CacheEntry) : List CacheEntry :=
  ⟨k, v, ttl⟩ :: c.filter (fun e => e.key != k)

/-- Embedding of `getCachedResult`: `'NO_DATA'` renders as the negative-hit string, a numeric
string as the number; `none` is a cache miss (`null`). -/
def getCachedResult (k : String) (s : Sys) : Option JSValue × Sys :=
  match cacheGet k s.cache with
  | none => (none, s)
  | some .noData => (some (.str "No data available (cached)"), s)
  | some (.price q) => (some (.num q), s)

/-- Embedding of `setCachedResult` (the source coerces a non-number argument to `'NO_DATA'`;
call sites here pass the already-coerced `CacheVal`). -/
def setCachedResult (k : String) (v : CacheVal) (ttl : Nat) (s : Sys) : Sys :=
  { s with cache := cachePut k v ttl s.cache }

/-- `API_LOCK.tryLock(waitMs)`.  When the lock is already held by this resolution the outcome is
the platform's re-entrancy behaviour (`reentrant`, carried by the oracle); otherwise the next
oracle outcome is consumed and, on success, the lock becomes held. -/
def tryLock (s : Sys) (reentrant : Bool) : Bool × Sys :=
  if s.heldByUs then (reentrant, s)
  else
    match s.lockGrants with
    | [] => (false, s)
    | g :: rest => (g, { s with lockGrants := rest, heldByUs := g })

def releaseLock (s : Sys) : Sys := { s with heldByUs := false }

def sleep (ms : Nat) (s : Sys) : Sys := { s with sleeps := s.sleeps ++ [ms] }

def logCall (u : String) (s : Sys) : Sys := { s with calls := s.calls ++ [u] }

/-! ## Network oracle -/

/-- Outcome of one `UrlFetchApp.fetch` + `JSON.parse`: a thrown exception (transport error or
malformed JSON), a non-200 HTTP status code, or the parsed 200 response. -/
inductive HttpOut (α : Type) where
  | throwEx (msg : String)
  | httpErr (code : Nat)
  | ok (a : α)
deriving DecidableEq, Repr

/-- One row of a `/klines` response: `[openTime, open, high, low, close, volume, ...]`; only the
fields the source reads (`[0]`, `[2]`, `[3]`) are modelled. -/
structure Candle where
  ts : Int
  high : ℚ
  low : ℚ
deriving DecidableEq, Repr

structure MexcSym where
  baseAsset : String
  quoteAsset : String
deriving DecidableEq, Repr

/-- One CoinGecko ticker entry: staleness flag, volume, and `converted_last?.usd`. -/
structure Ticker where
  isStale : Bool
  volume : ℚ
  usd : Option ℚ
deriving DecidableEq, Repr

structure OhlcvRow where
  high : ℚ
  low : ℚ
deriving DecidableEq, Repr

/-- Per-resolution network oracle: the parsed outcome of each endpoint the source can reach
(list-valued where the source retries the same endpoint), plus the platform's lock re-entrancy
behaviour. -/
structure Net where
  reentrant : Bool
  mexcExchangeInfo : HttpOut (List MexcSym)
  mexcKlines1m : HttpOut (List Candle)
  mexcKlines60m : HttpOut (List Candle)
  geckoSimple : HttpOut (Option ℚ)
  geckoTickers : List (HttpOut (List Ticker))
  geckoHistory : List (HttpOut (Option ℚ))
  paprikaTickers : HttpOut Bool
  paprikaOhlcv : HttpOut (List OhlcvRow)
deriving DecidableEq, Repr

/-! ## MEXC provider -/

/-- The source line `target === 'low' ? parseFloat(data[0][3]) : parseFloat(data[0][2])` for one
candle row. -/
def selectPrice (c : Candle) (target : String) : ℚ :=
  if target == "low" then c.low else c.high

/-- The extreme selection the source applies to a window of candle rows: `null` on an empty
window, otherwise the target field of the FIRST row (`data[0]`). -/
def selectExtreme (data : List Candle) (target : String) : Option ℚ :=
  data.head?.map (fun c => selectPrice c target)

/-- The selection the SPEC describes (§4.4): maximum of the `high` field resp. minimum of the
`low` field across ALL rows in the window; `NoData` on an empty window.  Stated from the spec's
words for comparison with `selectExtreme`. -/
def specSelectExtreme (data : List Candle) (target : String) : Option ℚ :=
  match data with
  | [] => none
  | c :: rest =>
    some (if target == "low" then (rest.map Candle.low).foldl min c.low
          else (rest.map Candle.high).foldl max c.high)

/-- The symbol-discovery loop over `exchangeInfo().symbols`: a `USDT` pair wins and breaks out
of the loop (note: an earlier `BTC` match leaves `useBTC` set, as in the source); a `BTC` pair is
recorded and the scan continues. -/
def pickSymbol (syms : List MexcSym) (upperToken : String) (cur : Option String)
    (useBTC : Bool) : Option String × Bool :=
  match syms with
  | [] => (cur, useBTC)
  | sym :: rest =>
    if jsToUpper sym.baseAsset == upperToken then
      if sym.quoteAsset == "USDT" then (some (upperToken ++ "USDT"), useBTC)
      else if sym.quoteAsset == "BTC" then
        pickSymbol rest upperToken (some (upperToken ++ "BTC")) true
      else pickSymbol rest upperToken cur useBTC
    else pickSymbol rest upperToken cur useBTC

/-- The candle-timestamp validation: a non-empty 1-minute response whose first candle's open
time is more than 120000 ms away from the requested instant is discarded (`data = null`). -/
def dropIfFar (data : Option (List Candle)) (utcMs : Int) : Option (List Candle) :=
  match data with
  | some (c :: rest) =>
    if (c.ts - utcMs).natAbs > 120000 then none else some (c :: rest)
  | d => d

/-- `!data || data.length === 0`. -/
def dataEmpty : Option (List Candle) → Bool
  | none => true
  | some [] => true
  | some (_ :: _) => false

/-- One `/klines` fetch: `data = res.getResponseCode() === 200 ? JSON.parse(...) : null`. -/
def mexcKlinesFetch (o : HttpOut (List Candle)) (label : String) (s : Sys) :
    Except String (Option (List Candle)) × Sys :=
  let s := logCall label s
  match o with
  | .throwEx m => (.error m, s)
  | .httpErr _ => (.ok none, s)
  | .ok d => (.ok (some d), s)

/-- Embedding of `getBTCUSDTPrice`.  A `'NO_DATA'` string under the `btc_usdt` key would be read
back as `NaN` by `parseFloat`; `NaN` propagates through the callers identically to `null`, so it
is modelled as `none`. -/
def getBTCUSDTPrice (net : Net) (s : Sys) : Except String (Option ℚ) × Sys :=
  match cacheGet "btc_usdt" s.cache with
  | some (.price q) => (.ok (some q), s)
  | some .noData => (.ok none, s)
  | none =>
    let s := logCall "coingecko/simple_price" s
    match net.geckoSimple with
    | .throwEx m => (.error m, s)
    | .httpErr _ => (.ok none, s)
    | .ok p =>
      match p with
      | none => (.ok none, s)
      | some q =>
        if q == 0 then (.ok none, s)
        else (.ok (some q), setCachedResult "btc_usdt" (.price q) 300 s)

/-- Embedding of `getPriceFromMEXC`.  Returns `.error` for a propagating exception, `.ok none`
for the `null` returns, `.ok (some v)` for a returned value. -/
def getPriceFromMEXC (net : Net) (token : String) (utcMs : Int) (target : String) (s : Sys) :
    Except String (Option JSValue) × Sys :=
  if token == "grc" || token == "xtm" then (.ok none, s)
  else
    let s := logCall "mexc/exchangeInfo" s
    match net.mexcExchangeInfo with
    | .throwEx m => (.error m, s)
    | .httpErr _ => (.ok none, s)
    | .ok syms =>
      match pickSymbol syms (jsToUpper token) none false with
      | (none, _) => (.ok none, s)
      | (some _, useBTC) =>
        match mexcKlinesFetch net.mexcKlines1m "mexc/klines/1m" s with
        | (.error m, s) => (.error m, s)
        | (.ok data0, s) =>
          let data1 := dropIfFar data0 utcMs
          match (if dataEmpty data1 then mexcKlinesFetch net.mexcKlines60m "mexc/klines/60m" s
                 else (.ok data1, s)) with
          | (.error m, s) => (.error m, s)
          | (.ok data2, s) =>
            match data2 with
            | none => (.ok none, s)
            | some [] => (.ok none, s)
            | some (c :: rest) =>
              let q := match selectExtreme (c :: rest) target with
                       | some q => q
                       | none => 0
              if useBTC then
                match getBTCUSDTPrice net s with
                | (.error m, s) => (.error m, s)
                | (.ok none, s) => (.ok none, s)
                | (.ok (some b), s) => (.ok (some (.num (q * b))), s)
              else (.ok (some (.num q)), s)

/-- Embedding of `getPriceFromCryptoCompare`: a stub that always returns `null`. -/
def getPriceFromCryptoCompare (_token : String) (_utcMs : Int) (_target : String) (s : Sys) :
    Except String (Option JSValue) × Sys :=
  (.ok none, s)

/-! ## CoinGecko provider -/

/-- Embedding of `applySpread`: `spread = 0.015`; LOW gets `price * (1 - spread)`, anything else
`price * (1 + spread)`. -/
def applySpread (price : ℚ) (target : String) : ℚ :=
  let spread : ℚ := 15 / 1000
  if target == "low" then price * (1 - spread) else price * (1 + spread)

/-- JavaScript truthiness of `x?.usd` for an optional number. -/
def jsTruthyQ : Option ℚ → Bool
  | none => false
  | some q => q != 0

/-- The highest-volume non-stale ticker scan of `tryCoinGeckoTickers`. -/
def selectTickerPrice (ts : List Ticker) (maxVol : ℚ) (sel : Option ℚ) : Option ℚ :=
  match ts with
  | [] => sel
  | t :: rest =>
    if !t.isStale && decide (t.volume > maxVol) && jsTruthyQ t.usd then
      selectTickerPrice rest t.volume t.usd
    else selectTickerPrice rest maxVol sel

/-- Embedding of the `tryCoinGeckoTickers` retry loop (`attempts < 3`; 429 sleeps 5 s and
retries; other non-200 codes retry immediately; a 200 returns the ticker scan's result). -/
def tryCoinGeckoTickers : Nat → List (HttpOut (List Ticker)) → Sys →
    Except String (Option ℚ) × Sys
  | 0, _, s => (.ok none, s)
  | fuel + 1, resps, s =>
    let s := logCall "coingecko/tickers" s
    match resps with
    | [] => (.ok none, s)
    | r :: rest =>
      match r with
      | .throwEx m => (.error m, s)
      | .httpErr code =>
        if code == 429 then tryCoinGeckoTickers fuel rest (sleep 5000 s)
        else tryCoinGeckoTickers fuel rest s
      | .ok ts => (.ok (selectTickerPrice ts 0 none), s)

/-- Embedding of the `tryCoinGeckoHistory` retry loop (a 200 whose
`market_data?.current_price?.usd` is falsy also falls through and retries). -/
def tryCoinGeckoHistory : Nat → List (HttpOut (Option ℚ)) → Sys →
    Except String (Option ℚ) × Sys
  | 0, _, s => (.ok none, s)
  | fuel + 1, resps, s =>
    let s := logCall "coingecko/history" s
    match resps with
    | [] => (.ok none, s)
    | r :: rest =>
      match r with
      | .throwEx m => (.error m, s)
      | .httpErr code =>
        if code == 429 then tryCoinGeckoHistory fuel rest (sleep 5000 s)
        else tryCoinGeckoHistory fuel rest s
      | .ok p =>
        if jsTruthyQ p then (.ok p, s)
        else tryCoinGeckoHistory fuel rest s

/-- The `finally` block of `getPriceFromCoinGecko`:
`if (API_LOCK.hasLock()) API_LOCK.releaseLock()`. -/
def geckoFinally (s : Sys) : Sys :=
  if s.heldByUs then releaseLock s else s

/-- Embedding of `getPriceFromCoinGecko`.  A negative daily-cache hit feeds the string
`'No data available (cached)'` into `applySpread`, which in JavaScript multiplies a string by a
number and yields `NaN`; that is the `.nan` branch. -/
def getPriceFromCoinGecko (net : Net) (id : String) (utcMs : Int) (target : String) (s : Sys) :
    Except String (Option JSValue) × Sys :=
  let dateStr := formatDateDDMMYYYY utcMs
  let geckoKey := "gecko_daily_" ++ id ++ "_" ++ dateStr
  match cacheGet geckoKey s.cache with
  | some (.price q) => (.ok (some (.num (applySpread q target))), s)
  | some .noData => (.ok (some .nan), s)
  | none =>
    match tryLock s net.reentrant with
    | (false, s) => (.ok (some (.str "Rate limit busy - retry later")), s)
    | (true, s) =>
      let s := sleep 500 s
      match tryCoinGeckoTickers 3 net.geckoTickers s with
      | (.error m, s) => (.error m, geckoFinally s)
      | (.ok price0, s) =>
        match (if price0.isSome then ((.ok price0 : Except String (Option ℚ)), s)
               else tryCoinGeckoHistory 3 net.geckoHistory s) with
        | (.error m, s) => (.error m, geckoFinally s)
        | (.ok price1, s) =>
          match price1 with
          | some p =>
            let s := setCachedResult geckoKey (.price p) 86400 s
            (.ok (some (.num (applySpread p target))), geckoFinally s)
          | none =>
            let s := setCachedResult geckoKey .noData 86400 s
            (.ok (some (.str "No data available (cached)")), geckoFinally s)

/-! ## CoinPaprika provider -/

/-- Embedding of `getPriceFromCoinPaprika`: tickers probe for `quotes.USD`, then the OHLCV
window; first row's `low`/`high` by target. -/
def getPriceFromCoinPaprika (net : Net) (_id : String) (_utcMs : Int) (highOrLow : String)
    (s : Sys) : Except String (Option JSValue) × Sys :=
  let s := logCall "paprika/tickers" s
  match net.paprikaTickers with
  | .throwEx m => (.error m, s)
  | .httpErr _ => (.ok none, s)
  | .ok hasUSD =>
    if !hasUSD then (.ok none, s)
    else
      let s := logCall "paprika/ohlcv" s
      match net.paprikaOhlcv with
      | .throwEx m => (.error m, s)
      | .httpErr _ => (.ok none, s)
      | .ok [] => (.ok none, s)
      | .ok (row :: _) =>
        (.ok (some (.num (if highOrLow == "low" then row.low else row.high))), s)

/-! ## Fallback orchestrator (`getCryptoPrice`, `.gs`) -/

/-- `typeof price === 'number' && !isNaN(price)`. -/
def usableNum : Option JSValue → Option ℚ
  | some (.num q) => some q
  | _ => none

/-- `TOKEN_TO_ID[token].gecko`, with the source's `{ gecko: token, paprika: token }` default. -/
def geckoId (token : String) : String :=
  if token == "btc" then "bitcoin" else if token == "xmr" then "monero"
  else if token == "grc" then "gridcoin-research" else if token == "xtm" then "minotari-tari"
  else token

/-- `TOKEN_TO_ID[token].paprika`, with the default. -/
def paprikaId (token : String) : String :=
  if token == "btc" then "btc-bitcoin" else if token == "xmr" then "xmr-monero"
  else if token == "grc" then "grc-gridcoin" else if token == "xtm" then "xtm-tari"
  else token

/-- The provider walk of `getCryptoPrice`'s `try` block (lines 195–230 of the source): MEXC,
then CryptoCompare, then CoinGecko, then CoinPaprika; the first usable number is cached with the
24-hour TTL and returned; if all fail, `'NO_DATA'` is cached with the 5-minute TTL.  `.error`
models an exception escaping the `try` block. -/
def runProviders (net : Net) (token : String) (utcMs : Int) (target cacheKey : String)
    (s : Sys) : Except String JSValue × Sys :=
  match getPriceFromMEXC net token utcMs target s with
  | (.error m, s) => (.error m, s)
  | (.ok r1, s) =>
    match usableNum r1 with
    | some p => (.ok (.num p), setCachedResult cacheKey (.price p) 86400 s)
    | none =>
      match getPriceFromCryptoCompare token utcMs target s with
      | (.error m, s) => (.error m, s)
      | (.ok r2, s) =>
        match usableNum r2 with
        | some p => (.ok (.num p), setCachedResult cacheKey (.price p) 86400 s)
        | none =>
          match getPriceFromCoinGecko net (geckoId token) utcMs target s with
          | (.error m, s) => (.error m, s)
          | (.ok r3, s) =>
            match usableNum r3 with
            | some p => (.ok (.num p), setCachedResult cacheKey (.price p) 86400 s)
            | none =>
              match getPriceFromCoinPaprika net (paprikaId token) utcMs target s with
              | (.error m, s) => (.error m, s)
              | (.ok r4, s) =>
                match usableNum r4 with
                | some p => (.ok (.num p), setCachedResult cacheKey (.price p) 86400 s)
                | none =>
                  (.ok (.str "No data available from any source"),
                   setCachedResult cacheKey .noData 300 s)

/-- `CONFIG.LOCK_RETRY_BACKOFF`. -/
def lockRetryBackoff : List Nat := [5000, 10000, 20000]

/-- The lock retry loop (`for attempt in 0..<MAX_LOCK_RETRIES`): with a positive `apiDelayMs`,
try the lock; on success sleep `apiDelayMs` and stop; on failure sleep the backoff for this
attempt and continue.  With `apiDelayMs = 0` the lock is skipped and `lockAcquired` is set
immediately. -/
def lockLoop (net : Net) (apiDelayMs : Nat) : Nat → Nat → Sys → Bool × Sys
  | _, 0, s => (false, s)
  | attempt, remaining + 1, s =>
    if apiDelayMs > 0 then
      match tryLock s net.reentrant with
      | (true, s) => (true, sleep apiDelayMs s)
      | (false, s) =>
        lockLoop net apiDelayMs (attempt + 1) remaining
          (sleep ((lockRetryBackoff.get? attempt).getD 5000) s)
    else (true, s)

/-- Embedding of the entry point `getCryptoPrice` (`.gs`): normalize, reject future instants,
cache lookup, lock retry loop, provider walk inside `try`/`catch`/`finally`. -/
def getCryptoPrice (net : Net) (token0 : String) (dateInput : DateInput) (tz : String)
    (highOrLow : String) (apiDelayMs : Nat) (now : Int) (s : Sys) : JSValue × Sys :=
  let token := jsToLower token0
  let offsetHours := getTimezoneOffsetHours tz
  match dateInputToSafeStr dateInput with
  | none => (.str "Invalid date format", s)
  | some safeDateStr =>
    match parseInputToUtcMs (.str safeDateStr) offsetHours with
    | .error e => (.str e, s)
    | .ok utcMs =>
      if utcMs > now then (.str "No data available for future dates", s)
      else
        let target := if jsToLower highOrLow == "low" then "low" else "high"
        let cacheKey := cacheKeyFor token safeDateStr tz target
        match getCachedResult cacheKey s with
        | (some v, s) => (v, s)
        | (none, s) =>
          match lockLoop net apiDelayMs 0 3 s with
          | (false, s) =>
            if apiDelayMs > 0 then (.str "Rate limit busy - retry later", s)
            else
              let rs := runProviders net token utcMs target cacheKey s
              let v := match rs.1 with
                       | .ok v => v
                       | .error m => .str ("Error: " ++ m)
              (v, rs.2)
          | (true, s) =>
            let rs := runProviders net token utcMs target cacheKey s
            let v := match rs.1 with
                     | .ok v => v
                     | .error m => .str ("Error: " ++ m)
            (v, releaseLock rs.2)

/-! ## Independent characterization of the date regex, and concrete fixtures -/

/-- Boolean recognizer for the language of the regex
`^(\d{4})-(\d{2})-(\d{2}) (\d{2}):(\d{2}):(\d{2})$`: nineteen characters, digits in the
digit positions, and the literal separators in between. -/
def matchesDatePattern (s : String) : Bool :=
  match s.data with
  | [y1, y2, y3, y4, c1, m1, m2, c2, dd1, dd2, c3, h1, h2, c4, i1, i2, c5, e1, e2] =>
    y1.isDigit && y2.isDigit && y3.isDigit && y4.isDigit && m1.isDigit && m2.isDigit &&
    dd1.isDigit && dd2.isDigit && h1.isDigit && h2.isDigit && i1.isDigit && i2.isDigit &&
    e1.isDigit && e2.isDigit &&
    c1 == '-' && c2 == '-' && c3 == ' ' && c4 == ':' && c5 == ':'
  | _ => false

/-- An empty system state. -/
def sys0 : Sys := ⟨[], false, [], [], []⟩

/-- A network oracle on which every endpoint fails with a non-200 status. -/
def net0 : Net := ⟨false, .httpErr 500, .httpErr 500, .httpErr 500, .httpErr 500,
  [], [], .httpErr 500, .httpErr 500⟩

/-- A network oracle on which MEXC lists XMR/USDT and returns a single in-tolerance 1-minute
candle with high 191 and low 189. -/
def netMexcXmr : Net :=
  { net0 with
    mexcExchangeInfo := .ok [⟨"XMR", "USDT"⟩],
    mexcKlines1m := .ok [⟨1765320362000, 191, 189⟩] }

/-- A network oracle on which the MEXC fine-grained window is empty and the coarse-grained
window holds one candle. -/
def netMexcCoarse : Net :=
  { net0 with
    mexcExchangeInfo := .ok [⟨"XMR", "USDT"⟩],
    mexcKlines1m := .ok [],
    mexcKlines60m := .ok [⟨1765320000000, 192, 188⟩] }

/-- A network oracle on which the CoinGecko tickers endpoint returns one fresh ticker. -/
def netGecko : Net :=
  { net0 with geckoTickers := [.ok [⟨false, 1000, some 200⟩]] }

/-- A system state whose lock oracle denies all three acquisition attempts. -/
def sysBusy : Sys := ⟨[], false, [false, false, false], [], []⟩

/-- A system state whose lock oracle grants the next acquisition attempt. -/
def sysLock : Sys := ⟨[], false, [true], [], []⟩

/-- A system state carrying one positive cache entry for a BTC query. -/
def sysCached : Sys :=
  ⟨[⟨"price_btc_2025-01-01000000_UTC_high", .price 5, 86400⟩], false, [], [], []⟩

/-- Decidable equality for `Except`, used to evaluate the embedding on concrete inputs. -/
instance {e a : Type} [DecidableEq e] [DecidableEq a] : DecidableEq (Except e a)
  | .error x, .error y =>
    if h : x = y then .isTrue (by rw [h]) else .isFalse (by simp [h])
  | .error _, .ok _ => .isFalse (by simp)
  | .ok _, .error _ => .isFalse (by simp)
  | .ok x, .ok y =>
    if h : x = y then .isTrue (by rw [h]) else .isFalse (by simp [h])

/-! # Theorems -/

/-! ## Calendar helper lemmas -/

theorem sumYearsFrom_zero (y0 : Nat) : sumYearsFrom y0 0 = 0 := rfl

theorem sumYearsFrom_succ_front (y0 k : Nat) :
    sumYearsFrom y0 (k + 1) = daysInYear y0 + sumYearsFrom (y0 + 1) k := by
  unfold sumYearsFrom
  rw [List.range_succ_eq_map]
  simp only [List.map_cons, List.map_map, List.sum_cons, Nat.add_zero]
  congr 1
  apply congrArg
  apply List.map_congr_left
  intro i _
  simp only [Function.comp_apply]
  congr 1
  omega

theorem yearFromDaysF_decode :
    ∀ (k fuel y0 r : Nat), k < fuel → r < daysInYear (y0 + k) →
      yearFromDaysF fuel y0 (sumYearsFrom y0 k + r) = (y0 + k, r) := by
  intro k
  induction k with
  | zero =>
    intro fuel y0 r hfuel hr
    match fuel, hfuel with
    | f + 1, _ =>
      rw [sumYearsFrom_zero, Nat.zero_add]
      simp only [yearFromDaysF]
      rw [if_pos (by simpa using hr), Nat.add_zero]
  | succ k ih =>
    intro fuel y0 r hfuel hr
    match fuel, hfuel with
    | f + 1, hfuel =>
      rw [sumYearsFrom_succ_front]
      simp only [yearFromDaysF]
      rw [if_neg (by omega)]
      have : daysInYear y0 + sumYearsFrom (y0 + 1) k + r - daysInYear y0 =
          sumYearsFrom (y0 + 1) k + r := by omega
      rw [this, ih f (y0 + 1) r (by omega) (by rw [show y0 + 1 + k = y0 + (k + 1) by omega]; exact hr)]
      rw [show y0 + 1 + k = y0 + (k + 1) by omega]

theorem daysInMonthL_le (l : Bool) (m : Nat) : daysInMonthL l m ≤ 31 := by
  unfold daysInMonthL
  cases h : (monthLengths l).get? (m - 1) with
  | none => simp
  | some v =>
    have hv := List.get?_mem h
    simp only [Option.getD_some]
    cases l <;> simp [monthLengths] at hv <;> omega

theorem monthFromDaysF_decode :
    ∀ (l : Bool) (m : Nat), m < 13 → ∀ d, d < 32 →
      (1 ≤ m ∧ 1 ≤ d ∧ d ≤ daysInMonthL l m) →
      monthFromDaysF 12 l 1 (daysBeforeMonthL l m + (d - 1)) = (m, d) ∧
        daysBeforeMonthL l m + (d - 1) < daysInYearL l := by
  decide

/-- Decoding inverts encoding on every calendar-valid component tuple. -/
theorem utcMs_roundTrip (c : DateComponents) (h : validComponents c) :
    utcMsToComponents (componentsToUtcMs c) = c := by
  obtain ⟨year, month, day, hour, minute, second⟩ := c
  obtain ⟨h1970, h2100, hm1, hm12, hd1, hdm, hh, hmi, hs⟩ := h
  simp only at h1970 h2100 hm1 hm12 hd1 hdm hh hmi hs
  have hd31 : day ≤ 31 := le_trans hdm (daysInMonthL_le _ _)
  have hmd := monthFromDaysF_decode (isLeap year) month (by omega) day (by omega)
    ⟨hm1, hd1, hdm⟩
  have hdoyY : daysBeforeMonthL (isLeap year) month + (day - 1) < daysInYear year := by
    rw [daysInYear]; exact hmd.2
  have hyr := yearFromDaysF_decode (year - 1970) 400 1970
    (daysBeforeMonthL (isLeap year) month + (day - 1)) (by omega)
    (by rw [show 1970 + (year - 1970) = year by omega]; exact hdoyY)
  rw [show 1970 + (year - 1970) = year by omega] at hyr
  have hD : daysFromCivil year month day =
      daysBeforeYear year + (daysBeforeMonthL (isLeap year) month + (day - 1)) := by
    unfold daysFromCivil; omega
  have hdiv : componentsToUtcMs ⟨year, month, day, hour, minute, second⟩ / 86400000 =
      daysBeforeYear year + (daysBeforeMonthL (isLeap year) month + (day - 1)) := by
    unfold componentsToUtcMs
    simp only
    omega
  have hmod : componentsToUtcMs ⟨year, month, day, hour, minute, second⟩ % 86400000 =
      hour * 3600000 + minute * 60000 + second * 1000 := by
    unfold componentsToUtcMs
    simp only
    omega
  simp only [utcMsToComponents, hdiv, hmod]
  rw [show daysBeforeYear year + (daysBeforeMonthL (isLeap year) month + (day - 1)) =
        sumYearsFrom 1970 (year - 1970) + (daysBeforeMonthL (isLeap year) month + (day - 1))
      from by rw [daysBeforeYear]]
  rw [hyr]
  simp only
  rw [hmd.1]
  simp only [DateComponents.mk.injEq, true_and]
  refine ⟨by omega, by omega, by omega⟩

/-- Every successful parse yields calendar-valid components and the input matched the
position-indexed regex characterization. -/
theorem parse_ok_valid (s : String) (c : DateComponents)
    (h : parseDateStringToComponents s = .ok c) :
    validComponents c ∧ matchesDatePattern s = true := by
  unfold parseDateStringToComponents at h
  split at h
  case h_2 => exact absurd h (by simp)
  case h_1 y1 y2 y3 y4 m1 m2 dd1 dd2 h1 h2 i1 i2 e1 e2 hdata =>
    split at h
    case isFalse => exact absurd h (by simp)
    case isTrue hdig =>
      simp only [Bool.and_eq_true] at hdig
      obtain ⟨⟨⟨⟨⟨⟨⟨⟨⟨⟨⟨⟨⟨hy1, hy2⟩, hy3⟩, hy4⟩, hm1⟩, hm2⟩, hd1⟩, hd2⟩,
        hh1⟩, hh2⟩, hi1⟩, hi2⟩, he1⟩, he2⟩ := hdig
      dsimp only at h
      split at h
      · exact absurd h (by simp)
      · split at h
        · exact absurd h (by simp)
        · split at h
          · exact absurd h (by simp)
          · split at h
            · exact absurd h (by simp)
            · split at h
              · exact absurd h (by simp)
              · split at h
                · exact absurd h (by simp)
                · split at h
                  · rename_i hyr hmo hdy hho hmn hsc hdim
                    obtain rfl : c = ⟨d4 y1 y2 y3 y4, d2 m1 m2, d2 dd1 dd2,
                        d2 h1 h2, d2 i1 i2, d2 e1 e2⟩ := (Except.ok.inj h).symm
                    constructor
                    · refine ⟨?_, ?_, ?_, ?_, ?_, ?_, ?_, ?_, ?_⟩ <;> dsimp only <;> omega
                    · simp [matchesDatePattern, hdata, hy1, hy2, hy3, hy4, hm1, hm2,
                        hd1, hd2, hh1, hh2, hi1, hi2, he1, he2]
                  · exact absurd h (by simp)

/-! ## C1: extreme selection -/

/-- C1 (counterexample): on a two-row window the selection embedded from the source
(`data[0][2]` / `data[0][3]`) returns the first row's high, not the maximum of the "high" field
across all rows demanded by the claim (here the second row's high, 100). -/
theorem selectExtreme_not_max_counterexample :
    selectExtreme [⟨0, 1, 1⟩, ⟨0, 100, 1/2⟩] "high" = some 1 ∧
    specSelectExtreme [⟨0, 1, 1⟩, ⟨0, 100, 1/2⟩] "high" = some 100 ∧
    selectExtreme [⟨0, 1, 1⟩, ⟨0, 100, 1/2⟩] "high" ≠
      specSelectExtreme [⟨0, 1, 1⟩, ⟨0, 100, 1/2⟩] "high" := by
  refine ⟨rfl, ?_, ?_⟩ <;> decide

/-- C1 (amended): the selection returns the target field of the FIRST row of the window; the
empty window yields `none` (NoData), never zero or a sentinel number; on windows of at most one
row (all the source ever requests, `limit=1`) this coincides with the spec's max/min across all
rows. -/
theorem selectExtreme_firstRow (data : List Candle) (target : String) :
    (data = [] → selectExtreme data target = none) ∧
    (∀ c rest, data = c :: rest → selectExtreme data target = some (selectPrice c target)) ∧
    (data.length ≤ 1 → selectExtreme data target = specSelectExtreme data target) := by
  refine ⟨?_, ?_, ?_⟩
  · rintro rfl; rfl
  · rintro c rest rfl; rfl
  · intro hlen
    match data with
    | [] => rfl
    | [c] => rfl
    | _ :: _ :: _ => simp at hlen

theorem selectExtreme_firstRow_witness :
    selectExtreme [] "high" = none ∧
    selectExtreme [⟨0, 5, 3⟩] "low" = specSelectExtreme [⟨0, 5, 3⟩] "low" :=
  ⟨(selectExtreme_firstRow [] "high").1 rfl,
   (selectExtreme_firstRow [⟨0, 5, 3⟩] "low").2.2 (by decide)⟩

/-! ## C2: strict time normalization -/

/-- C2 (counterexample): the CLI normalizer (`parseInputToUtcMs` in
`crypto-price-filler/index.js`) accepts the string `"2025-01-02T03:04:05Z"`, which does not
match the fixed pattern `YYYY-MM-DD HH:MM:SS`, through its explicit `new Date(dateStr)`
fallback, returning a best-effort parsed instant instead of an invalid-input error. -/
theorem cliNormalizer_bestEffort_counterexample :
    matchesDatePattern "2025-01-02T03:04:05Z" = false ∧
    cliParseInputToUtcMs "2025-01-02T03:04:05Z" 0 0 = some 1735787045000 := by
  refine ⟨?_, ?_⟩ <;> decide

/-- C2 (amended): the Apps Script normalizer `parseDateStringToComponents` is strict: any
string outside the regex language is rejected, any accepted string yields calendar-valid
components (so calendar-invalid dates are never silently adjusted), and `2025-02-30 00:00:00`
in particular is rejected with the calendar error, distinct from the format error. -/
theorem parseDateString_strict :
    (∀ s : String, matchesDatePattern s = false →
      ∀ c : DateComponents, parseDateStringToComponents s ≠ .ok c) ∧
    (∀ (s : String) (c : DateComponents),
      parseDateStringToComponents s = .ok c → validComponents c) ∧
    parseDateStringToComponents "2025-02-30 00:00:00" =
      .error "Invalid date (e.g., Feb 30 does not exist)" := by
  refine ⟨?_, ?_, by decide⟩
  · intro s hm c hp
    have := (parse_ok_valid s c hp).2
    rw [this] at hm
    exact absurd hm (by simp)
  · intro s c hp
    exact (parse_ok_valid s c hp).1

theorem parseDateString_strict_witness :
    parseDateStringToComponents "2025-1-2 03:04:05" ≠ .ok ⟨2025, 1, 2, 3, 4, 5⟩ ∧
    validComponents ⟨2025, 1, 2, 3, 4, 5⟩ :=
  ⟨parseDateString_strict.1 "2025-1-2 03:04:05" (by decide) ⟨2025, 1, 2, 3, 4, 5⟩,
   parseDateString_strict.2.1 "2025-01-02 03:04:05" ⟨2025, 1, 2, 3, 4, 5⟩ (by decide)⟩

/-! ## C3: normalization formula and round-trip law -/

/-- C3: for every string accepted by the parser and every timezone label, normalization
produces exactly `localComponentsAsUtcMs - offsetHours * 3600000`, and re-offsetting the UTC
result by the same timezone recovers the original local calendar components (round-trip law;
determinism is inherent since the embedding is a pure function of its arguments). -/
theorem parseInputToUtcMs_offset_roundTrip (s : String) (c : DateComponents) (tz : String)
    (u : Int) (hp : parseDateStringToComponents s = .ok c)
    (hu : parseInputToUtcMs (.str s) (getTimezoneOffsetHours tz) = .ok u) :
    u = (componentsToUtcMs c : Int) - getTimezoneOffsetHours tz * 3600000 ∧
    utcMsToComponents (u + getTimezoneOffsetHours tz * 3600000).toNat = c := by
  unfold parseInputToUtcMs at hu
  dsimp only at hu
  rw [hp] at hu
  have hue : u = (componentsToUtcMs c : Int) - getTimezoneOffsetHours tz * 3600000 :=
    (Except.ok.inj hu).symm
  refine ⟨hue, ?_⟩
  rw [hue, show (componentsToUtcMs c : Int) - getTimezoneOffsetHours tz * 3600000
      + getTimezoneOffsetHours tz * 3600000 = (componentsToUtcMs c : Int) by ring,
    Int.toNat_natCast]
  exact utcMs_roundTrip c (parse_ok_valid s c hp).1

theorem parseInputToUtcMs_offset_roundTrip_witness :
    1765341962000 = ((componentsToUtcMs ⟨2025, 12, 9, 22, 46, 2⟩ : Int)
      - getTimezoneOffsetHours "CST" * 3600000) ∧
    utcMsToComponents ((1765341962000 : Int)
      + getTimezoneOffsetHours "CST" * 3600000).toNat = ⟨2025, 12, 9, 22, 46, 2⟩ :=
  parseInputToUtcMs_offset_roundTrip "2025-12-09 22:46:02" ⟨2025, 12, 9, 22, 46, 2⟩ "CST"
    1765341962000 (by decide) (by decide)

/-! ## C4: future instants short-circuit before any effect -/

/-- C4: when the normalized instant is strictly after "now", the orchestrator returns the
distinct future-instant outcome (not a format error) and the system state — cache, lock,
call log, sleep log — is returned untouched: no network access and no provider call occur. -/
theorem futureInstant_noNetwork (net : Net) (token : String) (dIn : DateInput)
    (tz mode : String) (apiDelayMs : Nat) (now : Int) (s : Sys) (safe : String) (u : Int)
    (hs : dateInputToSafeStr dIn = some safe)
    (hp : parseInputToUtcMs (.str safe) (getTimezoneOffsetHours tz) = .ok u)
    (hfut : u > now) :
    getCryptoPrice net token dIn tz mode apiDelayMs now s =
      (.str "No data available for future dates", s) := by
  unfold getCryptoPrice
  rw [hs]
  dsimp only
  rw [hp]
  dsimp only
  rw [if_pos hfut]

set_option maxRecDepth 10000 in
theorem futureInstant_noNetwork_witness :
    getCryptoPrice net0 "btc" (.str "2099-01-01 00:00:00") "UTC" "high" 0 0 sys0 =
      (.str "No data available for future dates", sys0) :=
  futureInstant_noNetwork net0 "btc" (.str "2099-01-01 00:00:00") "UTC" "high" 0 0 sys0
    "2099-01-01 00:00:00" 4070908800000 rfl (by decide) (by decide)

/-! ## C5: cache hits short-circuit -/

theorem cacheGet_cachePut_same (k : String) (v : CacheVal) (ttl : Nat) (c : List CacheEntry) :
    cacheGet k (cachePut k v ttl c) = some v := by
  unfold cacheGet cachePut
  simp [List.find?]

/-- Shared helper: with a valid non-future query whose key has a cache entry, the orchestrator
returns the rendered entry and leaves the state untouched. -/
theorem gcp_cacheHit (net : Net) (token : String) (dIn : DateInput) (tz mode : String)
    (apiDelayMs : Nat) (now : Int) (s : Sys) (safe : String) (u : Int) (v : CacheVal)
    (hs : dateInputToSafeStr dIn = some safe)
    (hp : parseInputToUtcMs (.str safe) (getTimezoneOffsetHours tz) = .ok u)
    (hfut : ¬ u > now)
    (hv : cacheGet (cacheKeyFor (jsToLower token) safe tz
        (if jsToLower mode == "low" then "low" else "high")) s.cache = some v) :
    getCryptoPrice net token dIn tz mode apiDelayMs now s =
      ((match v with
        | .noData => JSValue.str "No data available (cached)"
        | .price q => JSValue.num q), s) := by
  unfold getCryptoPrice
  rw [hs]
  dsimp only
  rw [hp]
  dsimp only
  rw [if_neg hfut]
  unfold getCachedResult
  simp only [hv]
  cases v <;> dsimp only

/-- Shared helper: whenever the provider walk returns a number, that number was just written to
the cache under the query key (with the positive TTL). -/
theorem runProviders_num_caches (net : Net) (token : String) (utcMs : Int)
    (target key : String) (s : Sys) (r : Except String JSValue) (s' : Sys) (p : ℚ)
    (h : runProviders net token utcMs target key s = (r, s'))
    (hr : r = .ok (.num p)) :
    cacheGet key s'.cache = some (.price p) := by
  subst hr
  unfold runProviders at h
  repeat' split at h
  all_goals obtain ⟨h1, h2⟩ := Prod.mk.inj h
  all_goals subst h2
  all_goals simp at h1
  all_goals subst h1
  all_goals exact cacheGet_cachePut_same ..

/-- Shared helper: whenever a valid, non-future resolution returns a number, the query key holds
that number in the cache of the resulting state. -/
theorem gcp_num_caches (net : Net) (token : String) (dIn : DateInput) (tz mode : String)
    (apiDelayMs : Nat) (now : Int) (s : Sys) (safe : String) (u : Int) (p : ℚ)
    (hs : dateInputToSafeStr dIn = some safe)
    (hp : parseInputToUtcMs (.str safe) (getTimezoneOffsetHours tz) = .ok u)
    (hfut : ¬ u > now)
    (h : (getCryptoPrice net token dIn tz mode apiDelayMs now s).1 = .num p) :
    cacheGet (cacheKeyFor (jsToLower token) safe tz
        (if jsToLower mode == "low" then "low" else "high"))
      (getCryptoPrice net token dIn tz mode apiDelayMs now s).2.cache = some (.price p) := by
  unfold getCryptoPrice at h ⊢
  rw [hs] at h ⊢
  dsimp only at h ⊢
  rw [hp] at h ⊢
  dsimp only at h ⊢
  rw [if_neg hfut] at h ⊢
  unfold getCachedResult at h ⊢
  cases hv : cacheGet (cacheKeyFor (jsToLower token) safe tz
      (if jsToLower mode == "low" then "low" else "high")) s.cache with
  | some v =>
    simp only [hv] at h ⊢
    cases v with
    | noData => simp at h
    | price q =>
      dsimp only at h ⊢
      rw [hv]
      exact congrArg some (congrArg CacheVal.price (JSValue.num.inj h))
  | none =>
    simp only [hv] at h ⊢
    rcases hl : lockLoop net apiDelayMs 0 3 s with ⟨acq, s1⟩
    simp only [hl] at h ⊢
    cases acq with
    | false =>
      dsimp only at h ⊢
      by_cases hd : apiDelayMs > 0
      · rw [if_pos hd] at h
        simp at h
      · rw [if_neg hd] at h ⊢
        rcases hrs : runProviders net (jsToLower token) u
            (if jsToLower mode == "low" then "low" else "high")
            (cacheKeyFor (jsToLower token) safe tz
              (if jsToLower mode == "low" then "low" else "high")) s1 with ⟨r, s2⟩
        simp only [hrs] at h ⊢
        cases r with
        | error m => simp at h
        | ok v =>
          dsimp only at h ⊢
          subst h
          exact runProviders_num_caches net (jsToLower token) u _ _ s1 _ s2 p hrs rfl
    | true =>
      dsimp only at h ⊢
      rcases hrs : runProviders net (jsToLower token) u
          (if jsToLower mode == "low" then "low" else "high")
          (cacheKeyFor (jsToLower token) safe tz
            (if jsToLower mode == "low" then "low" else "high")) s1 with ⟨r, s2⟩
      simp only [hrs] at h ⊢
      cases r with
      | error m => simp at h
      | ok v =>
        dsimp only at h ⊢
        subst h
        exact runProviders_num_caches net (jsToLower token) u _ _ s1 _ s2 p hrs rfl

/-- C5: on an unexpired cache entry (positive or negative) the resolution returns the rendered
cached value with the system state — in particular the network call log — untouched; and a
second resolution of the same query parameters after a first resolution that produced a price
returns that price with zero additional provider calls (the state, including the call log, is
unchanged by the second run). -/
theorem cacheHit_shortCircuits (net : Net) (token : String) (dIn : DateInput) (tz mode : String)
    (apiDelayMs : Nat) (now : Int) (s : Sys) (safe : String) (u : Int)
    (hs : dateInputToSafeStr dIn = some safe)
    (hp : parseInputToUtcMs (.str safe) (getTimezoneOffsetHours tz) = .ok u)
    (hfut : ¬ u > now) :
    (∀ v, cacheGet (cacheKeyFor (jsToLower token) safe tz
        (if jsToLower mode == "low" then "low" else "high")) s.cache = some v →
      getCryptoPrice net token dIn tz mode apiDelayMs now s =
        ((match v with
          | .noData => JSValue.str "No data available (cached)"
          | .price q => JSValue.num q), s)) ∧
    (∀ p, (getCryptoPrice net token dIn tz mode apiDelayMs now s).1 = .num p →
      getCryptoPrice net token dIn tz mode apiDelayMs now
          (getCryptoPrice net token dIn tz mode apiDelayMs now s).2 =
        (.num p, (getCryptoPrice net token dIn tz mode apiDelayMs now s).2)) := by
  constructor
  · intro v hv
    cases v with
    | noData =>
      simpa using gcp_cacheHit net token dIn tz mode apiDelayMs now s safe u .noData
        hs hp hfut hv
    | price q =>
      simpa using gcp_cacheHit net token dIn tz mode apiDelayMs now s safe u (.price q)
        hs hp hfut hv
  · intro p h
    exact gcp_cacheHit net token dIn tz mode apiDelayMs now
      (getCryptoPrice net token dIn tz mode apiDelayMs now s).2 safe u (.price p) hs hp hfut
      (gcp_num_caches net token dIn tz mode apiDelayMs now s safe u p hs hp hfut h)

set_option maxRecDepth 10000 in
theorem cacheHit_shortCircuits_witness :
    getCryptoPrice net0 "btc" (.str "2025-01-01 00:00:00") "UTC" "high" 0 1800000000000
        sysCached = (.num 5, sysCached) :=
  (cacheHit_shortCircuits net0 "btc" (.str "2025-01-01 00:00:00") "UTC" "high" 0 1800000000000
      sysCached "2025-01-01 00:00:00" 1735689600000 rfl (by decide) (by decide)).1
    (.price 5) (by decide)

/-! ## C6: bounded lock retry with exponential backoff -/

/-- C6: when the lock oracle denies acquisition three times (and the cache missed), the
orchestrator performs exactly the three attempts with the backoff sleeps 5 s, 10 s, 20 s, then
returns the RateLimitBusy outcome; the final state shows the cache and the network call log
unchanged — the only changes are the three consumed lock grants and the recorded backoff
sleeps. -/
theorem lockBusy_boundedRetry (net : Net) (token : String) (dIn : DateInput) (tz mode : String)
    (apiDelayMs : Nat) (now : Int) (s : Sys) (safe : String) (u : Int) (rest : List Bool)
    (hs : dateInputToSafeStr dIn = some safe)
    (hp : parseInputToUtcMs (.str safe) (getTimezoneOffsetHours tz) = .ok u)
    (hfut : ¬ u > now)
    (hmiss : cacheGet (cacheKeyFor (jsToLower token) safe tz
        (if jsToLower mode == "low" then "low" else "high")) s.cache = none)
    (hdelay : apiDelayMs > 0)
    (hheld : s.heldByUs = false)
    (hg : s.lockGrants = false :: false :: false :: rest) :
    getCryptoPrice net token dIn tz mode apiDelayMs now s =
      (.str "Rate limit busy - retry later",
       { s with sleeps := s.sleeps ++ [5000, 10000, 20000], lockGrants := rest }) := by
  obtain ⟨cache, held, grants, sleeps, calls⟩ := s
  simp only at hmiss hheld hg
  subst hheld
  subst hg
  unfold getCryptoPrice
  rw [hs]
  dsimp only
  rw [hp]
  dsimp only
  rw [if_neg hfut]
  unfold getCachedResult
  simp only [hmiss]
  simp [lockLoop, tryLock, lockRetryBackoff, sleep, hdelay]

set_option maxRecDepth 10000 in
theorem lockBusy_boundedRetry_witness :
    getCryptoPrice net0 "btc" (.str "2025-01-01 00:00:00") "UTC" "high" 200 1800000000000
        sysBusy =
      (.str "Rate limit busy - retry later", ⟨[], false, [], [5000, 10000, 20000], []⟩) :=
  lockBusy_boundedRetry net0 "btc" (.str "2025-01-01 00:00:00") "UTC" "high" 200 1800000000000
    sysBusy "2025-01-01 00:00:00" 1735689600000 [] rfl (by decide) (by decide) rfl
    (by decide) rfl rfl

/-! ## C7: provider walk order, short-circuiting, and caching TTLs -/

/-- C7: the walk consults MEXC first; a usable numeric price from it short-circuits the walk
and is cached with the 24-hour TTL and returned; otherwise the fallbacks run in order —
CryptoCompare (a stub), CoinGecko, CoinPaprika — the first usable number being cached with the
24-hour TTL and returned; and if every adapter yields no usable number the `NO_DATA` sentinel
is cached with the 5-minute TTL and the NoData outcome is returned. -/
theorem providerWalk_firstSuccess (net : Net) (token : String) (utcMs : Int)
    (target key : String) (s : Sys) :
    (∀ o1 s2 p, getPriceFromMEXC net token utcMs target s = (.ok o1, s2) →
      usableNum o1 = some p →
      runProviders net token utcMs target key s =
        (.ok (.num p), setCachedResult key (.price p) 86400 s2)) ∧
    (∀ o1 s2 o3 s3 p, getPriceFromMEXC net token utcMs target s = (.ok o1, s2) →
      usableNum o1 = none →
      getPriceFromCoinGecko net (geckoId token) utcMs target s2 = (.ok o3, s3) →
      usableNum o3 = some p →
      runProviders net token utcMs target key s =
        (.ok (.num p), setCachedResult key (.price p) 86400 s3)) ∧
    (∀ o1 s2 o3 s3 o4 s4 p, getPriceFromMEXC net token utcMs target s = (.ok o1, s2) →
      usableNum o1 = none →
      getPriceFromCoinGecko net (geckoId token) utcMs target s2 = (.ok o3, s3) →
      usableNum o3 = none →
      getPriceFromCoinPaprika net (paprikaId token) utcMs target s3 = (.ok o4, s4) →
      usableNum o4 = some p →
      runProviders net token utcMs target key s =
        (.ok (.num p), setCachedResult key (.price p) 86400 s4)) ∧
    (∀ o1 s2 o3 s3 o4 s4, getPriceFromMEXC net token utcMs target s = (.ok o1, s2) →
      usableNum o1 = none →
      getPriceFromCoinGecko net (geckoId token) utcMs target s2 = (.ok o3, s3) →
      usableNum o3 = none →
      getPriceFromCoinPaprika net (paprikaId token) utcMs target s3 = (.ok o4, s4) →
      usableNum o4 = none →
      runProviders net token utcMs target key s =
        (.ok (.str "No data available from any source"),
         setCachedResult key .noData 300 s4)) := by
  refine ⟨?_, ?_, ?_, ?_⟩
  · intro o1 s2 p h1 hu1
    unfold runProviders
    rw [h1]
    dsimp only
    rw [hu1]
  · intro o1 s2 o3 s3 p h1 hu1 h3 hu3
    unfold runProviders
    rw [h1]
    dsimp only
    rw [hu1]
    dsimp only
    unfold getPriceFromCryptoCompare
    dsimp only
    rw [show usableNum none = none from rfl]
    dsimp only
    rw [h3]
    dsimp only
    rw [hu3]
  · intro o1 s2 o3 s3 o4 s4 p h1 hu1 h3 hu3 h4 hu4
    unfold runProviders
    rw [h1]
    dsimp only
    rw [hu1]
    dsimp only
    unfold getPriceFromCryptoCompare
    dsimp only
    rw [show usableNum none = none from rfl]
    dsimp only
    rw [h3]
    dsimp only
    rw [hu3]
    dsimp only
    rw [h4]
    dsimp only
    rw [hu4]
  · intro o1 s2 o3 s3 o4 s4 h1 hu1 h3 hu3 h4 hu4
    unfold runProviders
    rw [h1]
    dsimp only
    rw [hu1]
    dsimp only
    unfold getPriceFromCryptoCompare
    dsimp only
    rw [show usableNum none = none from rfl]
    dsimp only
    rw [h3]
    dsimp only
    rw [hu3]
    dsimp only
    rw [h4]
    dsimp only
    rw [hu4]

theorem providerWalk_firstSuccess_witness :
    runProviders netMexcXmr "xmr" 1765320362000 "high" "K" sys0 =
      (.ok (.num 191),
       setCachedResult "K" (.price 191) 86400
         ⟨[], false, [], [], ["mexc/exchangeInfo", "mexc/klines/1m"]⟩) :=
  (providerWalk_firstSuccess netMexcXmr "xmr" 1765320362000 "high" "K" sys0).1
    (some (.num 191)) ⟨[], false, [], [], ["mexc/exchangeInfo", "mexc/klines/1m"]⟩
    191 (by decide) rfl

/-! ## C8: fine-grained window first, coarse-grained fallback -/

/-- C8: the 1-minute window is queried first (see the call-log order in the final state);
whenever it comes back empty, or its candle's timestamp deviates from the requested instant by
more than 120000 ms, the adapter discards it, queries the 60-minute window, and returns the
same extreme selection applied to that window. -/
theorem mexcIntervalFallback (net : Net) (token : String) (utcMs : Int) (target : String)
    (s : Sys) (syms : List MexcSym) (sym : String) (fine : List Candle)
    (c2 : Candle) (r2 : List Candle)
    (hskip : (token == "grc" || token == "xtm") = false)
    (hinfo : net.mexcExchangeInfo = .ok syms)
    (hpick : pickSymbol syms (jsToUpper token) none false = (some sym, false))
    (hfine : net.mexcKlines1m = .ok fine)
    (hfall : fine = [] ∨ ∀ c rest, fine = c :: rest → (c.ts - utcMs).natAbs > 120000)
    (hcoarse : net.mexcKlines60m = .ok (c2 :: r2)) :
    getPriceFromMEXC net token utcMs target s =
      (.ok (some (.num (selectPrice c2 target))),
       { s with calls := s.calls ++ ["mexc/exchangeInfo", "mexc/klines/1m",
          "mexc/klines/60m"] }) ∧
    selectExtreme (c2 :: r2) target = some (selectPrice c2 target) := by
  refine ⟨?_, rfl⟩
  unfold getPriceFromMEXC
  rw [hskip]
  simp only [Bool.false_eq_true, if_false]
  rw [hinfo]
  dsimp only
  rw [hpick]
  dsimp only
  unfold mexcKlinesFetch
  rw [hfine]
  dsimp only
  cases fine with
  | nil =>
    unfold dropIfFar dataEmpty
    dsimp only
    rw [hcoarse]
    dsimp only [logCall]
    simp [List.append_assoc, selectExtreme, selectPrice]
  | cons c rest =>
    rcases hfall with hfall | hfall
    · exact absurd hfall (by simp)
    · unfold dropIfFar
      dsimp only
      rw [if_pos (hfall c rest rfl)]
      unfold dataEmpty
      dsimp only
      rw [hcoarse]
      dsimp only [logCall]
      simp [List.append_assoc, selectExtreme, selectPrice]

theorem mexcIntervalFallback_witness :
    getPriceFromMEXC netMexcCoarse "xmr" 1765320362000 "high" sys0 =
      (.ok (some (.num 192)),
       ⟨[], false, [], [], ["mexc/exchangeInfo", "mexc/klines/1m", "mexc/klines/60m"]⟩) :=
  (mexcIntervalFallback netMexcCoarse "xmr" 1765320362000 "high" sys0 [⟨"XMR", "USDT"⟩]
      "XMRUSDT" [] ⟨1765320000000, 192, 188⟩ [] (by decide) rfl (by decide) rfl
      (Or.inl rfl) rfl).1

/-! ## C9: the lock is released on every exit path -/

theorem lockLoop_false_held (net : Net) (apiDelayMs : Nat) :
    ∀ (n k : Nat) (s : Sys), s.heldByUs = false →
      ∀ acq s', lockLoop net apiDelayMs k n s = (acq, s') → acq = false →
        s'.heldByUs = false := by
  intro n
  induction n with
  | zero =>
    intro k s hh acq s' hl hacq
    unfold lockLoop at hl
    obtain ⟨h1, h2⟩ := Prod.mk.inj hl
    subst h2
    exact hh
  | succ n ih =>
    intro k s hh acq s' hl hacq
    unfold lockLoop at hl
    by_cases hd : apiDelayMs > 0
    · rw [if_pos hd] at hl
      unfold tryLock at hl
      rw [hh] at hl
      simp only [Bool.false_eq_true, if_false] at hl
      cases hg : s.lockGrants with
      | nil =>
        rw [hg] at hl
        dsimp only at hl
        exact ih (k + 1) _ (by simp [sleep, hh]) acq s' hl hacq
      | cons g rest =>
        rw [hg] at hl
        dsimp only at hl
        cases g with
        | true =>
          dsimp only at hl
          obtain ⟨h1, h2⟩ := Prod.mk.inj hl
          exact absurd (h1.trans hacq) (by simp)
        | false =>
          dsimp only at hl
          exact ih (k + 1) _ (by simp [sleep]) acq s' hl hacq
    · rw [if_neg hd] at hl
      obtain ⟨h1, h2⟩ := Prod.mk.inj hl
      exact absurd (h1.trans hacq) (by simp)

/-- C9: a resolution that starts without holding the process-wide lock never terminates holding
it: on every exit path — parse error, future instant, cache hit, lock exhaustion, provider
success, provider failure, and a provider exception converted by the `catch` block alike — the
final state's lock flag is clear. -/
theorem lockAlwaysReleased (net : Net) (token : String) (dIn : DateInput) (tz mode : String)
    (apiDelayMs : Nat) (now : Int) (s : Sys) (hh : s.heldByUs = false) :
    (getCryptoPrice net token dIn tz mode apiDelayMs now s).2.heldByUs = false := by
  unfold getCryptoPrice
  cases hsafe : dateInputToSafeStr dIn with
  | none => exact hh
  | some safe =>
    dsimp only
    cases hp : parseInputToUtcMs (.str safe) (getTimezoneOffsetHours tz) with
    | error e => exact hh
    | ok u =>
      dsimp only
      by_cases hfut : u > now
      · rw [if_pos hfut]
        exact hh
      · rw [if_neg hfut]
        unfold getCachedResult
        cases hv : cacheGet (cacheKeyFor (jsToLower token) safe tz
            (if jsToLower mode == "low" then "low" else "high")) s.cache with
        | some v => cases v <;> exact hh
        | none =>
          rcases hl : lockLoop net apiDelayMs 0 3 s with ⟨acq, s1⟩
          simp only [hl]
          cases acq with
          | true => rfl
          | false =>
            dsimp only
            by_cases hd : apiDelayMs > 0
            · rw [if_pos hd]
              exact lockLoop_false_held net apiDelayMs 3 0 s hh false s1 hl rfl
            · have h0 : apiDelayMs = 0 := by omega
              subst h0
              have hr : lockLoop net 0 0 3 s = (true, s) := rfl
              rw [hr] at hl
              exact absurd (Prod.mk.inj hl).1 (by simp)

theorem lockAlwaysReleased_witness :
    (getCryptoPrice net0 "btc" (.str "2025-01-01 00:00:00") "UTC" "high" 0 1800000000000
      sys0).2.heldByUs = false :=
  lockAlwaysReleased net0 "btc" (.str "2025-01-01 00:00:00") "UTC" "high" 0 1800000000000
    sys0 rfl

/-! ## C10: CoinGecko synthetic spread -/

theorem geckoFinally_cache (s : Sys) : (geckoFinally s).cache = s.cache := by
  unfold geckoFinally releaseLock
  split <;> rfl

/-- C10: a price obtained through the CoinGecko adapter is returned as `p * 1.015` for HIGH and
`p * 0.985` for LOW, while only the raw `p` is stored under the adapter's daily cache key; and
on a later hit of that cache entry the spread is re-applied per target to the raw stored
price. -/
theorem geckoSpread_rawCache (net : Net) (id : String) (utcMs : Int) (target : String)
    (s : Sys) :
    (∀ p : ℚ, applySpread p "low" = p * (985 / 1000) ∧
      applySpread p "high" = p * (1015 / 1000)) ∧
    (∀ (ts : List Ticker) (more : List (HttpOut (List Ticker))) (rest : List Bool) (p : ℚ),
      cacheGet ("gecko_daily_" ++ id ++ "_" ++ formatDateDDMMYYYY utcMs) s.cache = none →
      s.heldByUs = false →
      s.lockGrants = true :: rest →
      net.geckoTickers = .ok ts :: more →
      selectTickerPrice ts 0 none = some p →
      (getPriceFromCoinGecko net id utcMs target s).1 =
          .ok (some (.num (applySpread p target))) ∧
        cacheGet ("gecko_daily_" ++ id ++ "_" ++ formatDateDDMMYYYY utcMs)
          (getPriceFromCoinGecko net id utcMs target s).2.cache = some (.price p)) ∧
    (∀ p : ℚ,
      cacheGet ("gecko_daily_" ++ id ++ "_" ++ formatDateDDMMYYYY utcMs) s.cache =
        some (.price p) →
      getPriceFromCoinGecko net id utcMs target s =
        (.ok (some (.num (applySpread p target))), s)) := by
  refine ⟨?_, ?_, ?_⟩
  · intro p
    unfold applySpread
    dsimp only
    constructor
    · rw [if_pos (by decide : (("low" == "low") = true))]
      norm_num
    · rw [if_neg (by decide : ¬ (("high" == "low") = true))]
      norm_num
  · intro ts more rest p hmiss hheld hg htick hsel
    unfold getPriceFromCoinGecko
    dsimp only
    simp only [hmiss]
    unfold tryLock
    rw [hheld]
    simp only [Bool.false_eq_true, if_false]
    rw [hg]
    dsimp only
    unfold tryCoinGeckoTickers
    rw [htick]
    dsimp only [logCall, sleep]
    rw [hsel]
    dsimp only [Option.isSome]
    rw [if_pos (show true = true from rfl)]
    dsimp only
    constructor
    · rfl
    · rw [geckoFinally_cache]
      exact cacheGet_cachePut_same ..
  · intro p hv
    unfold getPriceFromCoinGecko
    dsimp only
    simp only [hv]

set_option maxRecDepth 10000 in
theorem geckoSpread_rawCache_witness :
    (getPriceFromCoinGecko netGecko "monero" 1764599400000 "high" sysLock).1 =
      .ok (some (.num (applySpread 200 "high"))) ∧
    cacheGet ("gecko_daily_" ++ "monero" ++ "_" ++ formatDateDDMMYYYY 1764599400000)
      (getPriceFromCoinGecko netGecko "monero" 1764599400000 "high" sysLock).2.cache =
      some (.price 200) :=
  (geckoSpread_rawCache netGecko "monero" 1764599400000 "high" sysLock).2.1
    [⟨false, 1000, some 200⟩] [] [] 200 (by decide) rfl rfl rfl (by decide)
